import Mathlib

/-!
Shallow embedding of the conversation-reconstruction core of the
cursor-chat-browser repository: the text-extraction and diff-formatting
decoders, the per-conversation assembly loop of the workspace tabs route,
the tiered project-attribution resolver shared by the workspaces routes,
and the workspace-directory scanning loops of the listing routes.

Strings are modelled as Lean `String` (a wrapper around `List Char`);
JavaScript string operations (`trim`, `split`, `replace`, `startsWith`,
`substring`, `slice`, `join`) are re-implemented character-exactly below.
Absent/undefined JSON string fields are modelled as `""` where the source
only ever checks them for truthiness; fields whose absence is
distinguishable from emptiness are modelled with `Option` or a dedicated
inductive.  JSON.parse failures that the source catches are modelled as
explicit `malformed` constructors.
-/

namespace CCB

/-- Whitespace set used by JavaScript `String.prototype.trim`
(restricted to the ASCII whitespace characters that can occur here). -/
def isJsWS (c : Char) : Bool :=
  c = ' ' || c = '\t' || c = '\n' || c = '\r' || c = '\x0b' || c = '\x0c'

/-- JavaScript `trim` on a character list: drop whitespace from both ends. -/
def jsTrimList (l : List Char) : List Char :=
  ((l.dropWhile isJsWS).reverse.dropWhile isJsWS).reverse

/-- JavaScript `s.trim()`. -/
def jsTrim (s : String) : String := ⟨jsTrimList s.data⟩

/-- Remove the first occurrence of `pat` from a character list
(JavaScript `s.replace(pat, '')` with a plain-string pattern). -/
def removeFirstOcc (pat : List Char) : List Char → List Char
  | [] => []
  | c :: rest =>
    if pat.isPrefixOf (c :: rest) then (c :: rest).drop pat.length
    else c :: removeFirstOcc pat rest

/-- JavaScript `s.replace(pat, '')`: removes only the first occurrence. -/
def jsReplaceFirst (s pat : String) : String := ⟨removeFirstOcc pat.data s.data⟩

/-- The hardcoded home-directory prefix appearing in the source's
`/^\/Users\/evaran\//` regular expression. -/
def homePrefixChars : List Char := "/Users/evaran/".data

/-- JavaScript `s.replace(/^\/Users\/evaran\//, '')`: the regex is anchored,
so only a leading occurrence is stripped. -/
def stripHome (s : String) : String :=
  if homePrefixChars.isPrefixOf s.data then ⟨s.data.drop homePrefixChars.length⟩ else s

/-- JavaScript `s.split('\n')` on a character list. -/
def splitNlChars : List Char → List (List Char)
  | [] => [[]]
  | c :: rest =>
    match splitNlChars rest with
    | [] => [[]]
    | h :: t => if c = '\n' then [] :: h :: t else (c :: h) :: t

/-- JavaScript `Array.prototype.join(sep)`. -/
def joinSep (sep : String) : List String → String
  | [] => ""
  | h :: t => t.foldl (fun acc s => acc ++ sep ++ s) h

/-! Rich-text payloads (the `richText` JSON of a bubble): a tree of nodes,
each with a `type`, an optional `text`, and optional `children`. -/

/-- One node of a parsed rich-text tree. `ty`/`tx` model the node's `type`
and `text` fields (`tx = ""` for absent/empty); `children` is `none` when
the node has no `children` array. -/
inductive RTNode where
  | mk (ty : String) (tx : String) (children : Option (List RTNode))

/-- Source `extractTextFromRichText(children)`: depth-first concatenation of
leaf text nodes, wrapping `code`-typed nodes in fenced blocks. -/
def extractTextFromRichText : List RTNode → String
  | [] => ""
  | RTNode.mk ty tx ch :: rest =>
    (if ty = "text" ∧ tx ≠ "" then tx
     else
       match ch with
       | some l =>
         if ty = "code" then "\n```\n" ++ extractTextFromRichText l ++ "\n```\n"
         else extractTextFromRichText l
       | none => "")
    ++ extractTextFromRichText rest

/-- State of a bubble's `richText` field: absent/falsy, a string that fails
JSON.parse (the source catches the error), or parsed, in which case
`rootChildren` holds `root.children` when both `root` and `root.children`
are present. -/
inductive RichTextField where
  | absent
  | malformed
  | parsed (rootChildren : Option (List RTNode))

/-- One attached code block of a bubble (`language = ""` models an absent
language, matching the source's `codeBlock.language || ''`). -/
structure CodeBlock where
  language : String
  content : String
deriving DecidableEq

/-- Source loop appending each attached code block with non-empty `content`
as a fenced section after the base text. -/
def appendCodeBlocks (base : String) (cbs : List CodeBlock) : String :=
  cbs.foldl
    (fun acc cb =>
      acc ++ (if cb.content ≠ "" then
        "\n\n```" ++ cb.language ++ "\n" ++ cb.content ++ "\n```" else ""))
    base

/-- A decoded bubble payload, restricted to the fields the source reads.
The three file-reference lists hold the already-projected path strings the
source extracts (`filePath`, `uri.path`, `fileSelection.uri.path`); an
entry with a missing/falsy path is modelled as `""`, which the source
skips. -/
structure Bubble where
  text : String
  richText : RichTextField
  codeBlocks : List CodeBlock
  timestamp : Option Nat
  relevantFiles : List String
  attachedFileCodeChunksUris : List String
  contextFileSelections : List String

/-- Source `extractTextFromBubble(bubble)`: direct `text` if its trim is
non-empty, else the flattened rich text when `richText` parses with
`root.children` present, then attached code blocks appended
unconditionally. -/
def extractTextFromBubble (b : Bubble) : String :=
  let text := if b.text ≠ "" ∧ jsTrim b.text ≠ "" then b.text else ""
  let text :=
    if text = "" then
      match b.richText with
      | .parsed (some children) => extractTextFromRichText children
      | _ => ""
    else text
  appendCodeBlocks text b.codeBlocks

/-! Diff / tool-action payloads and the `formatToolAction` formatter. -/

/-- One entry of `action.newModelDiffWrtV0`. -/
structure DiffChange where
  modified : List String
deriving DecidableEq

/-- The parsed `action.parameters` object (absent sub-fields are `""`). -/
structure ToolParams where
  command : String
  tfile : String
  query : String
  instructions : String
deriving DecidableEq

/-- State of `action.parameters`: absent/falsy, a string failing JSON.parse
(caught by the source), or a usable object. -/
inductive ParamsField where
  | absent
  | malformed
  | ok (p : ToolParams)

/-- One entry of `resultData.files`. -/
structure FileEntry where
  name : String
  path : String
  ftype : String
deriving DecidableEq

/-- One entry of `resultData.results`. -/
structure SearchResultEntry where
  file : String
  content : String
deriving DecidableEq

/-- The parsed `action.result` object. -/
structure ToolResultData where
  output : String
  contents : String
  exitCodeV2 : Option Int
  files : List FileEntry
  results : List SearchResultEntry
deriving DecidableEq

/-- State of `action.result`: absent/falsy, a string failing JSON.parse
(caught by the source), or a usable object. -/
inductive ResultField where
  | absent
  | malformed
  | ok (r : ToolResultData)

/-- One entry of `action.webSearchResults`. -/
structure WebSearchResult where
  title : String
deriving DecidableEq

/-- A decoded diff/tool-action payload, restricted to the fields the
formatter reads.  String fields use `""` for absent/falsy.
`webSearchResults` keeps its presence bit because the source tests the
field itself for truthiness (an empty array is truthy and still emits the
section header). -/
structure ToolAction where
  newModelDiffWrtV0 : List DiffChange
  filePath : String
  command : String
  searchResults : String
  webResults : String
  toolName : String
  parameters : ParamsField
  result : ResultField
  actionsTaken : List String
  filesModified : List String
  gitStatus : String
  directoryListed : String
  webSearchResults : Option (List WebSearchResult)

/-- The `if (action.toolName)` block of the source formatter: appends the
tool-action header, then the parsed-parameters sub-sections, then the
parsed-result sub-sections, onto the accumulated `r`. -/
def toolActionStep (r : String) (toolName : String) (ps : ParamsField) (rs : ResultField) :
    String :=
  if toolName ≠ "" then
    let r := r ++ "\n\n**Tool Action:** " ++ toolName
    let r :=
      match ps with
      | .ok p =>
        let r := r ++ (if p.command ≠ "" then "\n**Command:** `" ++ p.command ++ "`" else "")
        let r := r ++ (if p.tfile ≠ "" then "\n**File:** " ++ p.tfile else "")
        let r := r ++ (if p.query ≠ "" then "\n**Query:** " ++ p.query else "")
        r ++ (if p.instructions ≠ "" then "\n**Instructions:** " ++ p.instructions else "")
      | _ => r
    let r :=
      match rs with
      | .ok rd =>
        let r := r ++ (if rd.output ≠ "" then "\n\n**Output:**\n```\n" ++ rd.output ++ "\n```" else "")
        let r := r ++ (if rd.contents ≠ "" then "\n\n**File Contents:**\n```\n" ++ rd.contents ++ "\n```" else "")
        let r :=
          match rd.exitCodeV2 with
          | some n => r ++ "\n\n**Exit Code:** " ++ toString n
          | none => r
        let r :=
          if rd.files ≠ [] then
            rd.files.foldl
              (fun acc file =>
                acc ++ ("\n- " ++ (if file.name ≠ "" then file.name else file.path)
                  ++ " (" ++ (if file.ftype ≠ "" then file.ftype else "file") ++ ")"))
              (r ++ "\n\n**Files Found:**")
          else r
        let r :=
          if rd.results ≠ [] then
            rd.results.foldl
              (fun acc sr =>
                acc ++ (if sr.file ≠ "" ∧ sr.content ≠ "" then
                  "\n\n**File:** " ++ sr.file ++ "\n```\n" ++ sr.content ++ "\n```"
                else ""))
              (r ++ "\n\n**Results:**")
          else r
        r
      | _ => r
    r
  else r

/-- The `if (action.filesModified ...)` block of the source formatter:
appends the section header, then one line per file, onto `r`. -/
def filesModifiedStep (r : String) (fms : List String) : String :=
  if fms ≠ [] then
    fms.foldl (fun acc file => acc ++ ("\n- " ++ file)) (r ++ "\n\n**Files Modified:**")
  else r

/-- The `if (action.webSearchResults)` block of the source formatter: when
the field is present (even empty), appends the section header, then one
line per titled result, onto `r`. -/
def webSearchStep (r : String) : Option (List WebSearchResult) → String
  | some wsrs =>
    wsrs.foldl (fun acc sr => acc ++ (if sr.title ≠ "" then "\n- " ++ sr.title else ""))
      (r ++ "\n\n**Web Search Results:**")
  | none => r

/-- Source `formatToolAction(action)`: sequentially appends one formatted
section per present optional field, in the fixed order of the source's
`if` chain; `none` models a null/undefined argument (`if (!action) return
''`). -/
def formatToolAction : Option ToolAction → String
  | none => ""
  | some action =>
    let result := ""
    let result :=
      if action.newModelDiffWrtV0 ≠ [] then
        action.newModelDiffWrtV0.foldl
          (fun acc diff =>
            acc ++ (if diff.modified ≠ [] then
              "\n\n**Code Changes:**\n```\n" ++ joinSep "\n" diff.modified ++ "\n```"
            else ""))
          result
      else result
    let result :=
      result ++ (if action.filePath ≠ "" then "\n\n**File:** " ++ action.filePath else "")
    let result :=
      result ++ (if action.command ≠ "" then "\n\n**Command:** `" ++ action.command ++ "`" else "")
    let result :=
      result ++ (if action.searchResults ≠ "" then "\n\n**Search Results:**\n" ++ action.searchResults else "")
    let result :=
      result ++ (if action.webResults ≠ "" then "\n\n**Web Search:**\n" ++ action.webResults else "")
    let result := toolActionStep result action.toolName action.parameters action.result
    let result :=
      result ++ (if action.actionsTaken ≠ [] then
        "\n\n**Actions Taken:** " ++ joinSep ", " action.actionsTaken else "")
    let result := filesModifiedStep result action.filesModified
    let result :=
      result ++ (if action.gitStatus ≠ "" then "\n\n**Git Status:**\n```\n" ++ action.gitStatus ++ "\n```" else "")
    let result :=
      result ++ (if action.directoryListed ≠ "" then "\n\n**Directory Listed:** " ++ action.directoryListed else "")
    let result := webSearchStep result action.webSearchResults
    result

/-! Per-section characterizations of the formatter, each a function of a
single input field, used to state that `formatToolAction` is exactly their
concatenation in a fixed order. -/

/-- Code-changes section of the formatter. -/
def secCodeChanges (diffs : List DiffChange) : String :=
  diffs.foldl
    (fun acc diff =>
      acc ++ (if diff.modified ≠ [] then
        "\n\n**Code Changes:**\n```\n" ++ joinSep "\n" diff.modified ++ "\n```"
      else ""))
    ""

/-- File-path section of the formatter. -/
def secFilePath (fp : String) : String :=
  if fp ≠ "" then "\n\n**File:** " ++ fp else ""

/-- Terminal-command section of the formatter. -/
def secCommand (cmd : String) : String :=
  if cmd ≠ "" then "\n\n**Command:** `" ++ cmd ++ "`" else ""

/-- Search-results section of the formatter. -/
def secSearchResults (sr : String) : String :=
  if sr ≠ "" then "\n\n**Search Results:**\n" ++ sr else ""

/-- Web-search section of the formatter. -/
def secWebResults (wr : String) : String :=
  if wr ≠ "" then "\n\n**Web Search:**\n" ++ wr else ""

/-- Parameters sub-section of the tool-action section. -/
def secParams : ParamsField → String
  | .ok p =>
    (if p.command ≠ "" then "\n**Command:** `" ++ p.command ++ "`" else "")
    ++ (if p.tfile ≠ "" then "\n**File:** " ++ p.tfile else "")
    ++ (if p.query ≠ "" then "\n**Query:** " ++ p.query else "")
    ++ (if p.instructions ≠ "" then "\n**Instructions:** " ++ p.instructions else "")
  | _ => ""

/-- Result sub-section of the tool-action section. -/
def secResult : ResultField → String
  | .ok rd =>
    (if rd.output ≠ "" then "\n\n**Output:**\n```\n" ++ rd.output ++ "\n```" else "")
    ++ (if rd.contents ≠ "" then "\n\n**File Contents:**\n```\n" ++ rd.contents ++ "\n```" else "")
    ++ (match rd.exitCodeV2 with
        | some n => "\n\n**Exit Code:** " ++ toString n
        | none => "")
    ++ (if rd.files ≠ [] then
          rd.files.foldl
            (fun acc file =>
              acc ++ ("\n- " ++ (if file.name ≠ "" then file.name else file.path)
                ++ " (" ++ (if file.ftype ≠ "" then file.ftype else "file") ++ ")"))
            "\n\n**Files Found:**"
        else "")
    ++ (if rd.results ≠ [] then
          rd.results.foldl
            (fun acc sr =>
              acc ++ (if sr.file ≠ "" ∧ sr.content ≠ "" then
                "\n\n**File:** " ++ sr.file ++ "\n```\n" ++ sr.content ++ "\n```"
              else ""))
            "\n\n**Results:**"
        else "")
  | _ => ""

/-- Tool-action section of the formatter (name, then parameters, then
result). -/
def secTool (tn : String) (ps : ParamsField) (rs : ResultField) : String :=
  if tn ≠ "" then "\n\n**Tool Action:** " ++ tn ++ secParams ps ++ secResult rs else ""

/-- Actions-taken section of the formatter. -/
def secActionsTaken (ats : List String) : String :=
  if ats ≠ [] then "\n\n**Actions Taken:** " ++ joinSep ", " ats else ""

/-- Files-modified section of the formatter. -/
def secFilesModified (fms : List String) : String :=
  if fms ≠ [] then
    fms.foldl (fun acc file => acc ++ ("\n- " ++ file)) "\n\n**Files Modified:**"
  else ""

/-- Git-status section of the formatter. -/
def secGitStatus (gs : String) : String :=
  if gs ≠ "" then "\n\n**Git Status:**\n```\n" ++ gs ++ "\n```" else ""

/-- Directory-listing section of the formatter. -/
def secDirectoryListed (dl : String) : String :=
  if dl ≠ "" then "\n\n**Directory Listed:** " ++ dl else ""

/-- Web-search-results section of the formatter. -/
def secWebSearchResults : Option (List WebSearchResult) → String
  | some wsrs =>
    wsrs.foldl (fun acc sr => acc ++ (if sr.title ≠ "" then "\n- " ++ sr.title else ""))
      "\n\n**Web Search Results:**"
  | none => ""

/-- Concatenation of the formatter's sections in the fixed source order. -/
def toolActionSections (a : ToolAction) : String :=
  secCodeChanges a.newModelDiffWrtV0
  ++ secFilePath a.filePath
  ++ secCommand a.command
  ++ secSearchResults a.searchResults
  ++ secWebResults a.webResults
  ++ secTool a.toolName a.parameters a.result
  ++ secActionsTaken a.actionsTaken
  ++ secFilesModified a.filesModified
  ++ secGitStatus a.gitStatus
  ++ secDirectoryListed a.directoryListed
  ++ secWebSearchResults a.webSearchResults

/-! Conversation assembly (the per-conversation loop of the workspace tabs
route). -/

/-- One entry of `composerData.fullConversationHeadersOnly`: a bubble id and
the numeric type discriminant (`1` = user). -/
structure Header where
  bubbleId : String
  htype : Nat
deriving DecidableEq

/-- One assembled turn pushed onto the route's `bubbles` array. -/
structure BubbleOut where
  btype : String
  text : String
  timestamp : Nat
deriving DecidableEq

/-- One entry of `context.terminalFiles`. -/
structure TermFile where
  path : String
deriving DecidableEq

/-- One file inside an attached-folder listing. -/
structure FolderFile where
  name : String
  ftype : String
deriving DecidableEq

/-- One entry of `context.attachedFoldersListDirResults`. -/
structure AttachedFolder where
  path : String
  files : List FolderFile
deriving DecidableEq

/-- One entry of `context.cursorRules`. -/
structure CursorRule where
  name : String
  description : String
deriving DecidableEq

/-- One entry of `context.summarizedComposers`. -/
structure SummarizedComposer where
  name : String
  composerId : String
deriving DecidableEq

/-- One decoded `messageRequestContext` record of a conversation, restricted
to the fields the assembly loop reads. -/
structure MsgContext where
  bubbleId : String
  gitStatusRaw : String
  terminalFiles : List TermFile
  attachedFoldersListDirResults : List AttachedFolder
  cursorRules : List CursorRule
  summarizedComposers : List SummarizedComposer
deriving DecidableEq

/-- The `contextText` accumulated for one bubble: every context of the
conversation whose `bubbleId` matches contributes its present sections in
the fixed source order (git status, terminal files, attached folders,
cursor rules, summarized composers). -/
def contextTextFor (bubbleId : String) (contexts : List MsgContext) : String :=
  contexts.foldl
    (fun acc ctx =>
      if ctx.bubbleId = bubbleId then
        let acc := acc ++ (if ctx.gitStatusRaw ≠ "" then
          "\n\n**Git Status:**\n```\n" ++ ctx.gitStatusRaw ++ "\n```" else "")
        let acc :=
          if ctx.terminalFiles ≠ [] then
            ctx.terminalFiles.foldl (fun a f => a ++ ("\n- " ++ f.path))
              (acc ++ "\n\n**Terminal Files:**")
          else acc
        let acc :=
          if ctx.attachedFoldersListDirResults ≠ [] then
            ctx.attachedFoldersListDirResults.foldl
              (fun a folder =>
                if folder.files ≠ [] then
                  folder.files.foldl
                    (fun a2 f => a2 ++ ("\n- " ++ f.name ++ " (" ++ f.ftype ++ ")"))
                    (a ++ ("\n\n**Folder:** " ++ (if folder.path ≠ "" then folder.path else "Unknown")))
                else a)
              (acc ++ "\n\n**Attached Folders:**")
          else acc
        let acc :=
          if ctx.cursorRules ≠ [] then
            ctx.cursorRules.foldl
              (fun a r => a ++ ("\n- " ++
                (if r.name ≠ "" then r.name
                 else if r.description ≠ "" then r.description else "Rule")))
              (acc ++ "\n\n**Cursor Rules:**")
          else acc
        let acc :=
          if ctx.summarizedComposers ≠ [] then
            ctx.summarizedComposers.foldl
              (fun a c => a ++ ("\n- " ++
                (if c.name ≠ "" then c.name
                 else if c.composerId ≠ "" then c.composerId else "Conversation")))
              (acc ++ "\n\n**Related Conversations:**")
          else acc
        acc
      else acc)
    ""

/-- The header loop of the tabs route: for each conversation header, look up
its bubble (orphans are skipped), extract text, append matching context
sections, and keep the turn only when the combined text has a non-empty
trim; the timestamp falls back to `now` (`Date.now()`) when the bubble's
is absent or `0` (both falsy in JavaScript). -/
def assembleHeaderBubbles (headers : List Header) (bubbleMap : String → Option Bubble)
    (contexts : List MsgContext) (now : Nat) : List BubbleOut :=
  headers.filterMap fun header =>
    match bubbleMap header.bubbleId with
    | none => none
    | some bubble =>
      let messageType := if header.htype = 1 then "user" else "ai"
      let text := extractTextFromBubble bubble
      let contextText := contextTextFor header.bubbleId contexts
      let fullText := text ++ contextText
      if jsTrim fullText ≠ "" then
        some { btype := messageType
               text := fullText
               timestamp :=
                 match bubble.timestamp with
                 | some t => if t ≠ 0 then t else now
                 | none => now }
      else none

/-- The synthetic turns appended for a conversation's `codeBlockDiff`
records: one assistant turn per diff whose formatted output has a
non-empty trim, stamped with `now` (`Date.now()`). -/
def diffBubbles (diffs : List ToolAction) (now : Nat) : List BubbleOut :=
  diffs.filterMap fun diff =>
    let diffText := formatToolAction (some diff)
    if jsTrim diffText ≠ "" then
      some { btype := "ai", text := "**Tool Action:**" ++ diffText, timestamp := now }
    else none

/-- Source truncation of a derived title line: `substring(0, 100)`, with an
ellipsis appended when the cut result has length exactly 100. -/
def truncateTitle (l : List Char) : String :=
  let t := l.take 100
  if t.length = 100 then String.mk t ++ "..." else String.mk t

/-- Source title resolution: the stored `composerData.name` when truthy,
else the first non-empty line of the first assembled bubble's text
(truncated), else the placeholder built from the truncated conversation
id.  `bubbles` is the header-derived turn list, before diff turns are
appended and before sorting, exactly as in the source. -/
def resolveTitle (name : String) (composerId : String) (bubbles : List BubbleOut) : String :=
  let base := if name ≠ "" then name else "Conversation " ++ String.mk (composerId.data.take 8)
  if name = "" then
    match bubbles with
    | [] => base
    | b :: _ =>
      if b.text ≠ "" then
        match (splitNlChars b.text.data).filter (fun l => jsTrimList l ≠ []) with
        | [] => base
        | l :: _ => truncateTitle l
      else base
  else base

/-- One entry of the route's `tabs` response. -/
structure ChatTab where
  id : String
  title : String
  timestamp : Nat
  bubbles : List BubbleOut
deriving DecidableEq

/-- Comparison function of the route's `bubbles.sort((a, b) =>
(a.timestamp || 0) - (b.timestamp || 0))` (timestamps are already
defaulted, so `x || 0 = x`); JavaScript sort is stable and ascending. -/
def bubbleLe (a b : BubbleOut) : Bool := a.timestamp ≤ b.timestamp

/-- The per-conversation tail of the tabs route: assemble the header-derived
turns; when at least one survives, resolve the title, append the synthetic
diff turns, stable-sort everything by timestamp, and emit the tab (with
the source's final defaulting map over the bubbles); otherwise emit
nothing for this conversation. -/
def assembleTab (name composerId : String) (headers : List Header)
    (bubbleMap : String → Option Bubble) (contexts : List MsgContext)
    (diffs : List ToolAction) (lastUpdatedAt createdAt now : Nat) : Option ChatTab :=
  let bubbles := assembleHeaderBubbles headers bubbleMap contexts now
  if bubbles.length > 0 then
    let title := resolveTitle name composerId bubbles
    let allBubbles := bubbles ++ diffBubbles diffs now
    let sorted := allBubbles.mergeSort bubbleLe
    some { id := composerId
           title := title
           timestamp := if lastUpdatedAt ≠ 0 then lastUpdatedAt else createdAt
           bubbles := sorted.map fun b =>
             { btype := b.btype
               text := if b.text ≠ "" then b.text else ""
               timestamp := if b.timestamp ≠ 0 then b.timestamp else now } }
  else none

/-! Project attribution (shared by the workspaces and tabs routes). -/

/-- One discovered workspace entry as the resolver sees it: the directory
name and the `folder` field of its `workspace.json` (`none` models a
missing/unreadable file or an absent field, all of which the source's
catch/guard skips). -/
structure WorkspaceEntryW where
  name : String
  folder : Option String
deriving DecidableEq

/-- Source `getProjectFromFilePath(filePath, workspaceEntries)`: strip the
hardcoded home prefix from the tested path, then return the first entry
whose normalized folder path (`file://` first-occurrence removal, then
home-prefix strip) is a prefix of it. -/
def getProjectFromFilePath (filePath : String) (entries : List WorkspaceEntryW) : Option String :=
  let normalizedPath := stripHome filePath
  entries.findSome? fun entry =>
    match entry.folder with
    | some folder =>
      if folder ≠ "" then
        let workspacePath := stripHome (jsReplaceFirst folder "file://")
        if workspacePath.data.isPrefixOf normalizedPath.data then some entry.name else none
      else none
    | none => none

/-- The attribution-relevant fields of a `composerData` payload.
`newlyCreatedFiles` holds the `file.uri.path` strings (`""` for a
missing/falsy `uri`/`path`, which the source skips); `codeBlockData` is
the key list of the code-block-location map when the field is present. -/
structure ComposerPayload where
  name : String
  newlyCreatedFiles : List String
  codeBlockData : Option (List String)
  fullConversationHeadersOnly : List Header

/-- Source `determineProjectForConversation`: four evidence tiers tried in
order with early return — layout hints, newly-created-file paths,
code-block-data keys (with a `file://` first-occurrence removal), and the
three bubble-embedded file-reference shapes walked per header. -/
def determineProjectForConversation (composerData : ComposerPayload) (composerId : String)
    (projectLayoutsMap : String → List String)
    (projectNameToWorkspaceId : String → Option String)
    (workspaceEntries : List WorkspaceEntryW)
    (bubbleMap : String → Option Bubble) : Option String :=
  let tier1 := (projectLayoutsMap composerId).findSome? fun projectName =>
    match projectNameToWorkspaceId projectName with
    | some w => if w ≠ "" then some w else none
    | none => none
  match tier1 with
  | some w => some w
  | none =>
    let tier2 := composerData.newlyCreatedFiles.findSome? fun p =>
      if p ≠ "" then getProjectFromFilePath p workspaceEntries else none
    match tier2 with
    | some w => some w
    | none =>
      let tier3 :=
        match composerData.codeBlockData with
        | some keys => keys.findSome? fun filePath =>
            getProjectFromFilePath (jsReplaceFirst filePath "file://") workspaceEntries
        | none => none
      match tier3 with
      | some w => some w
      | none =>
        composerData.fullConversationHeadersOnly.findSome? fun header =>
          match bubbleMap header.bubbleId with
          | some bubble =>
            let s1 := bubble.relevantFiles.findSome? fun p =>
              if p ≠ "" then getProjectFromFilePath p workspaceEntries else none
            match s1 with
            | some w => some w
            | none =>
              let s2 := bubble.attachedFileCodeChunksUris.findSome? fun p =>
                if p ≠ "" then getProjectFromFilePath p workspaceEntries else none
              match s2 with
              | some w => some w
              | none =>
                bubble.contextFileSelections.findSome? fun p =>
                  if p ≠ "" then getProjectFromFilePath p workspaceEntries else none
          | none => none

/-! Workspace-directory scanning: the listing route (which skips
directories without a store file) and the projects route (whose
per-entry `fs.stat` on the store file is not guarded). -/

/-- One directory of the storage root as the scanning loops observe it:
whether `state.vscdb` and `workspace.json` exist, the parsed chat-tab
count of its store (`none` when the record is missing or unparsable), the
`folder` field of its `workspace.json`, and the store file's mtime. -/
structure FSWorkspaceDir where
  name : String
  hasStateDb : Bool
  hasWorkspaceJson : Bool
  chatTabsCount : Option Nat
  folder : Option String
  mtime : Nat
deriving DecidableEq

/-- One entry of the listing route's response. -/
structure WorkspaceOut where
  id : String
  folder : Option String
  lastModified : Nat
  chatCount : Nat
deriving DecidableEq

/-- The listing route's loop (`app/api/workspaces/route.ts`): directories
without `state.vscdb` are skipped with `continue`; the rest are emitted
with their chat count (`chatData.tabs?.length || 0`). -/
def listWorkspacesRoute (dirs : List FSWorkspaceDir) : List WorkspaceOut :=
  dirs.filterMap fun d =>
    if d.hasStateDb then
      some { id := d.name
             folder := d.folder
             lastModified := d.mtime
             chatCount := d.chatTabsCount.getD 0 }
    else none

/-- One entry of the projects route's response. -/
structure ProjectOut where
  id : String
  pname : String
  conversationCount : Nat
  lastModified : Nat
deriving DecidableEq

/-- JavaScript `folder.split('/').pop() || folder.split('\\').pop()`. -/
def lastSegmentJs (f : String) : String :=
  let bySlash := ((f.splitOn "/").getLastD "")
  if bySlash ≠ "" then bySlash else (f.splitOn "\\").getLastD ""

/-- The per-entry body of the projects route's final loop: the display name
falls back from the folder's last segment to the truncated id. -/
def projectEntryOut (d : FSWorkspaceDir) (convCount : String → Nat) : ProjectOut :=
  let fallbackName := "Project " ++ String.mk (d.name.data.take 8)
  let workspaceName :=
    match d.folder with
    | some f =>
      let seg := lastSegmentJs f
      if seg ≠ "" then seg else fallbackName
    | none => fallbackName
  { id := d.name
    pname := workspaceName
    conversationCount := convCount d.name
    lastModified := d.mtime }

/-- The projects route's final loop over the workspace entries
(directories that have a `workspace.json`): it awaits `fs.stat` on each
entry's `state.vscdb` with no per-entry guard or catch, so a missing
store file rejects and the surrounding handler fails the whole query
(`Except.error`), which the outer catch turns into a 500 response. -/
def buildProjectsList (convCount : String → Nat) :
    List FSWorkspaceDir → Except String (List ProjectOut)
  | [] => .ok []
  | d :: rest =>
    if d.hasStateDb then
      match buildProjectsList convCount rest with
      | .ok ps => .ok (projectEntryOut d convCount :: ps)
      | .error e => .error e
    else .error "ENOENT"

/-- The projects route restricted to its workspace-entry discovery plus the
final loop: entries are the directories holding a `workspace.json`. -/
def buildProjectsRoute (dirs : List FSWorkspaceDir) (convCount : String → Nat) :
    Except String (List ProjectOut) :=
  buildProjectsList convCount (dirs.filter fun d => d.hasWorkspaceJson)

/-! Concrete fixtures used to evaluate the definitions on the inputs named
by the testable properties. -/

/-- Bubble `b1` of the end-to-end example: timestamp 100, text `hello`. -/
def c1Bubble1 : Bubble := ⟨"hello", .absent, [], some 100, [], [], []⟩

/-- Bubble `b2` of the end-to-end example: timestamp 50, text `world`. -/
def c1Bubble2 : Bubble := ⟨"world", .absent, [], some 50, [], [], []⟩

/-- Global bubble store of the end-to-end example. -/
def c1BubbleMap : String → Option Bubble := fun b =>
  if b = "b1" then some c1Bubble1 else if b = "b2" then some c1Bubble2 else none

/-- The single-bubble tab used to instantiate the universally quantified
assembly theorems. -/
def c1WitnessTab : ChatTab := ⟨"cW1", "world", 7, [⟨"user", "world", 50⟩]⟩

/-- A bubble whose text begins `Fix the bug` followed by a newline. -/
def c6Bubble : Bubble := ⟨"Fix the bug\nmore text", .absent, [], some 10, [], [], []⟩

/-- Bubble store holding only `c6Bubble`. -/
def c6BubbleMap : String → Option Bubble := fun b => if b = "bF" then some c6Bubble else none

/-- A bubble whose text is whitespace only. -/
def c10Bubble : Bubble := ⟨"   ", .absent, [], some 3, [], [], []⟩

/-- Bubble store holding only `c10Bubble`. -/
def c10BubbleMap : String → Option Bubble := fun b => if b = "bw" then some c10Bubble else none

/-- A code-diff event with a non-empty formatted output (a file path). -/
def c10Diff : ToolAction := ⟨[], "/tmp/x.ts", "", "", "", "", .absent, .absent, [], [], "", "", none⟩

/-- A workspace whose folder resolves project `wB` for file-path evidence. -/
def c2Entries : List WorkspaceEntryW := [⟨"wB", some "file:///Users/evaran/projB"⟩]

/-- A conversation carrying conflicting file-path evidence towards `wB`. -/
def c2Payload : ComposerPayload := ⟨"", ["/Users/evaran/projB/x.ts"], none, []⟩

/-- Layout hints of the conflicting-evidence conversation. -/
def c2Layouts : String → List String := fun cid => if cid = "c2id" then ["projA"] else []

/-- Folder-name index mapping the layout hint to project `wA`. -/
def c2NameMap : String → Option String := fun n => if n = "projA" then some "wA" else none

/-- A workspace whose `workspace.json` folder carries a `file://` scheme. -/
def c4Entries : List WorkspaceEntryW := [⟨"w1", some "file:///Users/evaran/myproj"⟩]

/-- A bubble referencing a file through `relevantFiles` with a `file://`
scheme on the path. -/
def c4Bubble : Bubble := ⟨"", .absent, [], none, ["file:///Users/evaran/myproj/a.ts"], [], []⟩

/-- Bubble store holding only `c4Bubble`. -/
def c4BubbleMap : String → Option Bubble := fun b => if b = "b1" then some c4Bubble else none

/-- A conversation whose only attribution evidence is `c4Bubble`. -/
def c4Payload : ComposerPayload := ⟨"", [], none, [⟨"b1", 1⟩]⟩

/-- A bubble whose only populated field is one `relevantFiles` path. -/
def relevantOnlyBubble (p : String) : Bubble := ⟨"", .absent, [], none, [p], [], []⟩

/-- Bubble store mapping `bid` to `relevantOnlyBubble p`. -/
def relevantOnlyBubbleMap (bid p : String) : String → Option Bubble :=
  fun b => if b = bid then some (relevantOnlyBubble p) else none

/-- Path normalization exactly as the specification words it: strip a
`file://` scheme prefix if present, then strip the hardcoded
home-directory prefix if present.  Stated from the spec (not the source)
for comparison against what the source actually does to tested paths. -/
def stripFileScheme (p : String) : String :=
  if "file://".data.isPrefixOf p.data then ⟨p.data.drop "file://".length⟩ else p

/-- Composition of the two strips the specification claims are applied to
every tested path. -/
def specNormalizePath (p : String) : String := stripHome (stripFileScheme p)

/-- A storage-root directory with both `workspace.json` and `state.vscdb`. -/
def c3DirOk : FSWorkspaceDir := ⟨"w1", true, true, some 2, some "/Users/evaran/proj1", 10⟩

/-- A storage-root directory with `workspace.json` but no `state.vscdb`. -/
def c3DirNoDb : FSWorkspaceDir := ⟨"w2", false, true, none, some "/Users/evaran/proj2", 11⟩

/-- A bubble with direct text and one attached code block. -/
def c9Bubble : Bubble := ⟨"hi", .absent, [⟨"ts", "x = 1"⟩], some 1, [], [], []⟩

/-! Helper lemmas about the JavaScript-style string operations and the
assembled bubble lists. -/

/-- The trim of a character list is empty exactly when every character is
whitespace. -/
theorem jsTrimList_eq_nil_iff (l : List Char) :
    jsTrimList l = [] ↔ ∀ c ∈ l, isJsWS c := by
  unfold jsTrimList
  rw [List.reverse_eq_nil_iff, List.dropWhile_eq_nil_iff]
  constructor
  · intro h c hc
    have hsplit : List.takeWhile isJsWS l ++ List.dropWhile isJsWS l = l :=
      List.takeWhile_append_dropWhile isJsWS l
    rw [← hsplit] at hc
    rcases List.mem_append.1 hc with h1 | h2
    · exact List.mem_takeWhile_imp h1
    · exact h c (List.mem_reverse.2 h2)
  · intro h c hc
    exact h c ((List.dropWhile_sublist isJsWS).subset (List.mem_reverse.1 hc))

/-- String-level version of `jsTrimList_eq_nil_iff`. -/
theorem jsTrim_eq_empty_iff (s : String) :
    jsTrim s = "" ↔ ∀ c ∈ s.data, isJsWS c := by
  rw [show jsTrim s = "" ↔ (jsTrim s).data = "".data from ⟨fun h => h ▸ rfl, fun h => String.ext h⟩]
  exact jsTrimList_eq_nil_iff s.data

/-- A string containing a non-whitespace character has a non-empty trim. -/
theorem jsTrim_ne_empty (s : String) (c : Char) (hc : c ∈ s.data) (hw : ¬ isJsWS c) :
    jsTrim s ≠ "" := fun h => hw ((jsTrim_eq_empty_iff s).1 h c hc)

/-- The formatted text of a kept diff turn always starts with the literal
tool-action label, so its trim is never empty. -/
theorem jsTrim_toolAction_ne_empty (t : String) :
    jsTrim ("**Tool Action:**" ++ t) ≠ "" := by
  apply jsTrim_ne_empty _ '*'
  · rw [String.data_append]
    exact List.mem_append.2 (Or.inl (by decide))
  · decide

/-- Closed form of a string-accumulating fold started from the empty
string. -/
def foldAppend {α : Type} (g : α → String) (l : List α) : String :=
  l.foldl (fun acc x => acc ++ g x) ""

/-- A string-accumulating fold factors through its initial accumulator. -/
theorem foldl_append_eq {α : Type} (g : α → String) (l : List α) :
    ∀ s : String, l.foldl (fun acc x => acc ++ g x) s = s ++ foldAppend g l := by
  induction l with
  | nil => intro s; simp [foldAppend]
  | cons h t ih =>
    intro s
    simp only [foldAppend, List.foldl_cons] at ih ⊢
    rw [ih (s ++ g h), ih ("" ++ g h), String.empty_append, String.append_assoc]

/-- Appending under a guard equals appending the guarded piece. -/
theorem str_ite_append (c : Prop) [Decidable c] (s t : String) :
    (if c then s ++ t else s) = s ++ (if c then t else "") := by
  by_cases h : c <;> simp [h]

/-- An emptiness guard around `foldAppend` is redundant. -/
theorem foldAppend_ite {α : Type} [DecidableEq α] (g : α → String) (l : List α) :
    (if l ≠ [] then foldAppend g l else "") = foldAppend g l := by
  by_cases h : l = [] <;> simp [h, foldAppend]

/-- `bubbleLe` is transitive. -/
theorem bubbleLe_trans (a b c : BubbleOut) (h1 : bubbleLe a b) (h2 : bubbleLe b c) :
    bubbleLe a c := by
  simp only [bubbleLe, decide_eq_true_eq] at h1 h2 ⊢
  omega

/-- `bubbleLe` is total. -/
theorem bubbleLe_total (a b : BubbleOut) : bubbleLe a b || bubbleLe b a := by
  simp only [bubbleLe, Bool.or_eq_true, decide_eq_true_eq]
  omega

/-- Every turn of an assembled conversation carries a non-zero timestamp
unless `now` itself is zero: header turns default a falsy stored
timestamp to `now`, and diff turns are stamped with `now`. -/
theorem mem_assembled_timestamp (headers : List Header) (bubbleMap : String → Option Bubble)
    (contexts : List MsgContext) (diffs : List ToolAction) (now : Nat) :
    ∀ b ∈ assembleHeaderBubbles headers bubbleMap contexts now ++ diffBubbles diffs now,
      b.timestamp = 0 → now = 0 := by
  intro b hb hts
  rcases List.mem_append.1 hb with h1 | h2
  · obtain ⟨hd, _, hsome⟩ := List.mem_filterMap.1 h1
    simp only [assembleHeaderBubbles] at hsome
    rcases hbm : bubbleMap hd.bubbleId with _ | bubble <;> rw [hbm] at hsome
    · exact absurd hsome (by simp)
    · simp only [] at hsome
      split at hsome
      · have hbeq := Option.some.inj hsome
        rw [← hbeq] at hts
        simp only [] at hts
        rcases hbt : bubble.timestamp with _ | t <;>
          rw [hbt] at hts <;> simp only [] at hts
        · exact hts
        · split at hts
          · rename_i hne
            exact absurd hts hne
          · exact hts
      · exact absurd hsome (by simp)
  · obtain ⟨d, _, hsome⟩ := List.mem_filterMap.1 h2
    simp only [diffBubbles] at hsome
    split at hsome
    · have hbeq := Option.some.inj hsome
      rw [← hbeq] at hts
      exact hts
    · exact absurd hsome (by simp)

/-- The bubbles of an emitted tab are exactly the stable timestamp sort of
the header-derived turns followed by the diff turns: the route's final
defaulting map is the identity on every element. -/
theorem assembleTab_bubbles (name composerId : String) (headers : List Header)
    (bubbleMap : String → Option Bubble) (contexts : List MsgContext)
    (diffs : List ToolAction) (lastUpdatedAt createdAt now : Nat) (tab : ChatTab)
    (h : assembleTab name composerId headers bubbleMap contexts diffs lastUpdatedAt createdAt now
      = some tab) :
    tab.bubbles =
      (assembleHeaderBubbles headers bubbleMap contexts now ++ diffBubbles diffs now).mergeSort
        bubbleLe := by
  simp only [assembleTab] at h
  split at h
  · rw [← Option.some.inj h]
    simp only []
    refine (List.map_congr_left ?_).trans (List.map_id _)
    intro a ha
    have hmem : a ∈ assembleHeaderBubbles headers bubbleMap contexts now ++ diffBubbles diffs now :=
      List.mem_mergeSort.1 ha
    have hz := mem_assembled_timestamp headers bubbleMap contexts diffs now a hmem
    cases a with
    | mk bt tx ts =>
      simp only [id_eq, BubbleOut.mk.injEq]
      refine ⟨trivial, ?_, ?_⟩
      · by_cases htx : tx = "" <;> simp [htx]
      · by_cases hts : ts = 0
        · have hnow := hz hts
          simp [hts, hnow]
        · simp [hts]
  · exact Option.noConfusion h

/-- C1: for the spec's end-to-end example (bubbles `b1` ts 100 `hello`,
`b2` ts 50 `world`, header order `[b2, b1]`) the assembled turn texts are
`["world", "hello"]`, and in general the turn sequence of any assembled
conversation is non-decreasing in timestamp. -/
theorem claim1_turns_sorted_by_timestamp :
    ((assembleTab "" "c1" [⟨"b2", 1⟩, ⟨"b1", 1⟩] c1BubbleMap [] [] 7 7 999).map
      fun tab => tab.bubbles.map fun b => b.text) = some ["world", "hello"]
    ∧ ∀ (name composerId : String) (headers : List Header) (bubbleMap : String → Option Bubble)
        (contexts : List MsgContext) (diffs : List ToolAction)
        (lastUpdatedAt createdAt now : Nat) (tab : ChatTab),
        assembleTab name composerId headers bubbleMap contexts diffs lastUpdatedAt createdAt now
          = some tab →
        tab.bubbles.Pairwise fun x y => x.timestamp ≤ y.timestamp := by
  constructor
  · have hb : assembleHeaderBubbles [⟨"b2", 1⟩, ⟨"b1", 1⟩] c1BubbleMap [] 999
        = [⟨"user", "world", 50⟩, ⟨"user", "hello", 100⟩] := by decide
    have hsorted : List.Pairwise (fun a b => bubbleLe a b = true)
        [(⟨"user", "world", 50⟩ : BubbleOut), ⟨"user", "hello", 100⟩] := by
      simp [List.pairwise_cons, bubbleLe]
    have hms := List.mergeSort_of_sorted hsorted
    simp [assembleTab, hb, diffBubbles, hms]
  · intro name composerId headers bubbleMap contexts diffs lu cr now tab h
    rw [assembleTab_bubbles name composerId headers bubbleMap contexts diffs lu cr now tab h]
    have hs := List.sorted_mergeSort bubbleLe_trans bubbleLe_total
      (assembleHeaderBubbles headers bubbleMap contexts now ++ diffBubbles diffs now)
    exact hs.imp fun hxy => by simpa [bubbleLe] using hxy

/-- The single-bubble conversation used to instantiate the quantified
assembly theorems at a concrete input. -/
theorem c1WitnessTab_eq :
    assembleTab "" "cW1" [⟨"b2", 1⟩] c1BubbleMap [] [] 7 7 999 = some c1WitnessTab := by
  have hb : assembleHeaderBubbles [⟨"b2", 1⟩] c1BubbleMap [] 999
      = [⟨"user", "world", 50⟩] := by decide
  simp [assembleTab, hb, diffBubbles, c1WitnessTab]
  decide

/-- Witness: the sortedness half of C1 applied to a concrete conversation. -/
theorem claim1_witness :
    c1WitnessTab.bubbles.Pairwise (fun x y => x.timestamp ≤ y.timestamp) :=
  claim1_turns_sorted_by_timestamp.2 "" "cW1" [⟨"b2", 1⟩] c1BubbleMap [] [] 7 7 999
    c1WitnessTab c1WitnessTab_eq

/-- When the stored name is absent and the first assembled bubble's text
has a first non-empty line `l`, the resolved title is `l` truncated. -/
theorem resolveTitle_derived (composerId : String) (b : BubbleOut) (rest : List BubbleOut)
    (l : List Char) (ls : List (List Char))
    (hfilter : (splitNlChars b.text.data).filter (fun x => jsTrimList x ≠ []) = l :: ls) :
    resolveTitle "" composerId (b :: rest) = truncateTitle l := by
  by_cases hbt : b.text = ""
  · rw [hbt, show ("" : String).data = [] from rfl] at hfilter
    simp [splitNlChars, jsTrimList] at hfilter
  · simp only [ne_eq, decide_not] at hfilter
    simp [resolveTitle, hbt, hfilter]

/-- C6: title precedence — a truthy stored name wins; else the first
non-empty line of the first turn's text, truncated; else the placeholder
built from the truncated conversation id; and concretely a nameless
conversation whose one turn starts with a `Fix the bug` line is titled
exactly `Fix the bug`. -/
theorem claim6_title_precedence :
    (∀ (name composerId : String) (bubbles : List BubbleOut), name ≠ "" →
      resolveTitle name composerId bubbles = name)
    ∧ (∀ (composerId : String) (b : BubbleOut) (rest : List BubbleOut) (l : List Char)
        (ls : List (List Char)),
        (splitNlChars b.text.data).filter (fun x => jsTrimList x ≠ []) = l :: ls →
        resolveTitle "" composerId (b :: rest) = truncateTitle l)
    ∧ (∀ composerId : String, resolveTitle "" composerId []
        = "Conversation " ++ String.mk (composerId.data.take 8))
    ∧ ((assembleTab "" "c6conv" [⟨"bF", 1⟩] c6BubbleMap [] [] 7 7 999).map fun t => t.title)
        = some "Fix the bug" := by
  refine ⟨?_, ?_, ?_, ?_⟩
  · intro name composerId bubbles h
    simp [resolveTitle, h]
  · exact resolveTitle_derived
  · intro composerId
    simp [resolveTitle]
  · have hb : assembleHeaderBubbles [⟨"bF", 1⟩] c6BubbleMap [] 999
        = [⟨"user", "Fix the bug\nmore text", 10⟩] := by decide
    simp [assembleTab, hb, diffBubbles]
    decide

/-- Witness: the stored-name tier of C6 at a concrete input. -/
theorem claim6_witness : resolveTitle "Stored name" "cid" [] = "Stored name" :=
  claim6_title_precedence.1 "Stored name" "cid" [] (by decide)

/-- C7: when the first non-empty line of the title-deriving turn is longer
than 100 characters, the title is exactly its first 100 characters plus
the ellipsis marker. -/
theorem claim7_truncation :
    ∀ (composerId : String) (b : BubbleOut) (rest : List BubbleOut) (l : List Char)
      (ls : List (List Char)),
      (splitNlChars b.text.data).filter (fun x => jsTrimList x ≠ []) = l :: ls →
      100 < l.length →
      resolveTitle "" composerId (b :: rest) = String.mk (l.take 100) ++ "..." := by
  intro composerId b rest l ls hfilter hlen
  rw [resolveTitle_derived composerId b rest l ls hfilter]
  simp [truncateTitle, List.length_take, Nat.min_eq_left (Nat.le_of_lt hlen)]

/-- Witness: C7 at a 101-character line. -/
theorem claim7_witness :
    resolveTitle "" "cid7" [⟨"user", String.mk (List.replicate 101 'a'), 5⟩]
      = String.mk (List.replicate 100 'a') ++ "..." := by
  have h := claim7_truncation "cid7" ⟨"user", String.mk (List.replicate 101 'a'), 5⟩ []
    (List.replicate 101 'a') [] (by decide) (by decide)
  have ht : (List.replicate 101 'a').take 100 = List.replicate 100 'a' := by decide
  rw [h, ht]

/-- C5: every turn of an emitted conversation has non-empty trimmed text,
both header-derived turns and synthetic diff turns. -/
theorem claim5_no_blank_turns :
    ∀ (name composerId : String) (headers : List Header) (bubbleMap : String → Option Bubble)
      (contexts : List MsgContext) (diffs : List ToolAction)
      (lastUpdatedAt createdAt now : Nat) (tab : ChatTab),
      assembleTab name composerId headers bubbleMap contexts diffs lastUpdatedAt createdAt now
        = some tab →
      ∀ b ∈ tab.bubbles, jsTrim b.text ≠ "" := by
  intro name composerId headers bubbleMap contexts diffs lu cr now tab h b hbmem
  rw [assembleTab_bubbles name composerId headers bubbleMap contexts diffs lu cr now tab h]
    at hbmem
  have hmem := List.mem_mergeSort.1 hbmem
  rcases List.mem_append.1 hmem with h1 | h2
  · obtain ⟨hd, _, hsome⟩ := List.mem_filterMap.1 h1
    simp only [assembleHeaderBubbles] at hsome
    rcases hbm : bubbleMap hd.bubbleId with _ | bubble <;> rw [hbm] at hsome
    · exact absurd hsome (by simp)
    · simp only [] at hsome
      split at hsome
      · rename_i hguard
        rw [← Option.some.inj hsome]
        exact hguard
      · exact absurd hsome (by simp)
  · obtain ⟨d, _, hsome⟩ := List.mem_filterMap.1 h2
    simp only [diffBubbles] at hsome
    split at hsome
    · rw [← Option.some.inj hsome]
      exact jsTrim_toolAction_ne_empty _
    · exact absurd hsome (by simp)

/-- Witness: C5 applied to a concrete conversation and turn. -/
theorem claim5_witness :
    jsTrim (BubbleOut.mk "user" "world" 50).text ≠ "" :=
  claim5_no_blank_turns "" "cW1" [⟨"b2", 1⟩] c1BubbleMap [] [] 7 7 999 c1WitnessTab
    c1WitnessTab_eq ⟨"user", "world", 50⟩ (by decide)

/-- C10: a conversation is emitted exactly when at least one header-derived
turn with non-empty text survives; concretely, a conversation whose only
header turn is whitespace is omitted entirely even though it has a
code-diff event that would have produced a synthetic turn. -/
theorem claim10_conversation_requires_text_turn :
    (∀ (name composerId : String) (headers : List Header) (bubbleMap : String → Option Bubble)
      (contexts : List MsgContext) (diffs : List ToolAction) (lastUpdatedAt createdAt now : Nat),
      assembleTab name composerId headers bubbleMap contexts diffs lastUpdatedAt createdAt now
        = none
      ↔ assembleHeaderBubbles headers bubbleMap contexts now = [])
    ∧ assembleTab "" "c10conv" [⟨"bw", 1⟩] c10BubbleMap [] [c10Diff] 7 7 9 = none
    ∧ diffBubbles [c10Diff] 9 ≠ [] := by
  refine ⟨?_, by decide, by decide⟩
  intro name composerId headers bubbleMap contexts diffs lu cr now
  by_cases hl : (assembleHeaderBubbles headers bubbleMap contexts now).length > 0
  · have hne := List.length_pos.1 hl
    simp [assembleTab, hl, hne]
  · have hnil : assembleHeaderBubbles headers bubbleMap contexts now = [] := by
      simpa using List.length_eq_zero.1 (Nat.eq_zero_of_not_pos hl)
    simp [assembleTab, hl, hnil]

/-- Witness: C10 applied to a concrete header list with no surviving turn. -/
theorem claim10_witness :
    assembleTab "" "cid10" [] (fun _ => none) [] [] 1 1 2 = none :=
  (claim10_conversation_requires_text_turn.1 "" "cid10" [] (fun _ => none) [] [] 1 1 2).2
    (by decide)

/-- C2: whenever the layout-hint tier resolves (its first hint with a truthy
mapped workspace id yields `a`), the resolver returns `a` regardless of
every other field of the conversation — no later tier is consulted. -/
theorem claim2_layout_tier_wins :
    ∀ (composerData : ComposerPayload) (composerId : String)
      (projectLayoutsMap : String → List String)
      (projectNameToWorkspaceId : String → Option String)
      (workspaceEntries : List WorkspaceEntryW) (bubbleMap : String → Option Bubble)
      (a : String),
      ((projectLayoutsMap composerId).findSome? fun projectName =>
        match projectNameToWorkspaceId projectName with
        | some w => if w ≠ "" then some w else none
        | none => none) = some a →
      determineProjectForConversation composerData composerId projectLayoutsMap
        projectNameToWorkspaceId workspaceEntries bubbleMap = some a := by
  intro composerData composerId plm pnw entries bm a h
  simp only [determineProjectForConversation, h]

/-- Witness: C2 with a layout hint resolving to `wA` and conflicting
file-path evidence that alone would resolve to `wB`. -/
theorem claim2_witness :
    determineProjectForConversation c2Payload "c2id" c2Layouts c2NameMap c2Entries
      (fun _ => none) = some "wA"
    ∧ getProjectFromFilePath "/Users/evaran/projB/x.ts" c2Entries = some "wB" :=
  ⟨claim2_layout_tier_wins c2Payload "c2id" c2Layouts c2NameMap c2Entries (fun _ => none)
      "wA" (by decide),
    by decide⟩

/-- C4 counterexample: a `relevantFiles` path carrying a `file://` scheme is
not normalized as the claim states.  The conversation resolves to no
project, although under the claimed normalization (scheme strip, then
home strip) the same path matches workspace `w1`; the third conjunct
shows the code's actual comparison of the raw path failing. -/
theorem claim4_counterexample :
    determineProjectForConversation c4Payload "c4conv" (fun _ => []) (fun _ => none)
      c4Entries c4BubbleMap = none
    ∧ getProjectFromFilePath (specNormalizePath "file:///Users/evaran/myproj/a.ts") c4Entries
        = some "w1"
    ∧ getProjectFromFilePath "file:///Users/evaran/myproj/a.ts" c4Entries = none := by
  refine ⟨by decide, by decide, by decide⟩

/-- C4 amended: the `file://` strip is applied to the tested path only in
the code-block-data tier (first occurrence, via `jsReplaceFirst`); paths
from the bubble tiers are passed to the prefix-match helper unchanged,
which strips only the hardcoded home prefix. -/
theorem claim4_tier_normalization :
    (∀ (entries : List WorkspaceEntryW) (k composerId : String),
      determineProjectForConversation ⟨"", [], some [k], []⟩ composerId (fun _ => [])
        (fun _ => none) entries (fun _ => none)
        = getProjectFromFilePath (jsReplaceFirst k "file://") entries)
    ∧ (∀ (entries : List WorkspaceEntryW) (p composerId bid : String), p ≠ "" →
      determineProjectForConversation ⟨"", [], none, [⟨bid, 1⟩]⟩ composerId (fun _ => [])
        (fun _ => none) entries (relevantOnlyBubbleMap bid p)
        = getProjectFromFilePath p entries) := by
  constructor
  · intro entries k composerId
    simp only [determineProjectForConversation, List.findSome?_nil, List.findSome?_cons]
    cases h : getProjectFromFilePath (jsReplaceFirst k "file://") entries <;> simp [h]
  · intro entries p composerId bid hp
    simp only [determineProjectForConversation, List.findSome?_nil, List.findSome?_cons,
      relevantOnlyBubbleMap, relevantOnlyBubble, if_pos]
    cases h : getProjectFromFilePath p entries <;> simp [h, hp]

/-- Witness: the bubble-tier half of the amended C4 at a concrete path. -/
theorem claim4_witness :
    determineProjectForConversation ⟨"", [], none, [⟨"bw4", 1⟩]⟩ "cid4" (fun _ => [])
      (fun _ => none) c4Entries (relevantOnlyBubbleMap "bw4" "/Users/evaran/myproj/a.ts")
      = getProjectFromFilePath "/Users/evaran/myproj/a.ts" c4Entries :=
  claim4_tier_normalization.2 c4Entries "/Users/evaran/myproj/a.ts" "cid4" "bw4" (by decide)

/-- C3: on a storage root where `w1` has its store file and `w2` (with a
`workspace.json`) does not, the projects route's loop fails the whole
query at `w2`'s unguarded `fs.stat`, while the listing route skips `w2`
and still returns `w1`. -/
theorem claim3_missing_store :
    buildProjectsRoute [c3DirOk, c3DirNoDb] (fun _ => 0) = Except.error "ENOENT"
    ∧ listWorkspacesRoute [c3DirOk, c3DirNoDb]
        = [{ id := "w1", folder := some "/Users/evaran/proj1", lastModified := 10,
             chatCount := 2 }] :=
  ⟨rfl, rfl⟩

/-- C9: bubble text-extraction is total with the documented precedence —
non-blank direct text wins (rich text ignored), else the flattened
parsed rich text, else the empty base; attached code blocks are appended
in every branch, and a payload with no text, no rich text and no code
blocks yields exactly the empty string. -/
theorem claim9_extraction_precedence :
    (∀ b : Bubble, jsTrim b.text ≠ "" →
      extractTextFromBubble b = appendCodeBlocks b.text b.codeBlocks)
    ∧ (∀ (b : Bubble) (ch : List RTNode), jsTrim b.text = "" →
      b.richText = RichTextField.parsed (some ch) →
      extractTextFromBubble b = appendCodeBlocks (extractTextFromRichText ch) b.codeBlocks)
    ∧ (∀ b : Bubble, jsTrim b.text = "" →
      (b.richText = RichTextField.absent ∨ b.richText = RichTextField.malformed
        ∨ b.richText = RichTextField.parsed none) →
      extractTextFromBubble b = appendCodeBlocks "" b.codeBlocks)
    ∧ (∀ b : Bubble, b.text = "" → b.richText = RichTextField.absent → b.codeBlocks = [] →
      extractTextFromBubble b = "") := by
  have htext : ∀ s : String, jsTrim s ≠ "" → s ≠ "" := by
    intro s h hs
    exact h (by rw [hs]; rfl)
  refine ⟨?_, ?_, ?_, ?_⟩
  · intro b h
    have hb := htext b.text h
    simp [extractTextFromBubble, hb, h]
  · intro b ch h hrt
    simp [extractTextFromBubble, h, hrt]
  · intro b h hrt
    rcases hrt with hrt | hrt | hrt <;> simp [extractTextFromBubble, h, hrt]
  · intro b h hrt hcb
    simp [extractTextFromBubble, h, hrt, hcb, appendCodeBlocks]

/-- Witness: the direct-text branch of C9 at a concrete bubble. -/
theorem claim9_witness :
    extractTextFromBubble c9Bubble = appendCodeBlocks c9Bubble.text c9Bubble.codeBlocks :=
  claim9_extraction_precedence.1 c9Bubble (by decide)

/-- The tool-action block factors through its accumulator as the
`secTool` section. -/
theorem toolActionStep_eq (r : String) (tn : String) (ps : ParamsField) (rs : ResultField) :
    toolActionStep r tn ps rs = r ++ secTool tn ps rs := by
  by_cases htn : tn = ""
  · simp [toolActionStep, secTool, htn]
  · rcases ps with _ | _ | p <;> rcases rs with _ | _ | rd <;>
      (try obtain ⟨out, cont, ec, fls, res⟩ := rd) <;>
      (try rcases ec with _ | n) <;>
      (try by_cases hfls : fls = []) <;>
      (try by_cases hres : res = []) <;>
      simp [toolActionStep, secTool, secParams, secResult, htn, foldl_append_eq,
        str_ite_append, foldAppend_ite, String.append_assoc, *]

/-- The files-modified block factors through its accumulator as the
`secFilesModified` section. -/
theorem filesModifiedStep_eq (r : String) (fms : List String) :
    filesModifiedStep r fms = r ++ secFilesModified fms := by
  by_cases h : fms = [] <;>
    simp [filesModifiedStep, secFilesModified, h, foldl_append_eq, String.append_assoc]

/-- The web-search-results block factors through its accumulator as the
`secWebSearchResults` section. -/
theorem webSearchStep_eq (r : String) (o : Option (List WebSearchResult)) :
    webSearchStep r o = r ++ secWebSearchResults o := by
  cases o <;>
    simp [webSearchStep, secWebSearchResults, foldl_append_eq, String.append_assoc]

/-- C8: the diff-event formatter is a pure function, and its output is
exactly the concatenation of one section per optional field in the fixed
order of the source (`toolActionSections`), independent of any input
ordering between fields; a null payload formats to the empty string. -/
theorem claim8_formatter_fixed_sections :
    formatToolAction none = ""
    ∧ ∀ a : ToolAction, formatToolAction (some a) = toolActionSections a := by
  refine ⟨rfl, ?_⟩
  intro a
  obtain ⟨diffs, fp, cmd, sr, wr, tn, ps, rs, ats, fms, gs, dl, wsr⟩ := a
  simp only [formatToolAction, toolActionSections, toolActionStep_eq, filesModifiedStep_eq,
    webSearchStep_eq, secCodeChanges, secFilePath, secCommand, secSearchResults,
    secWebResults, secActionsTaken, secFilesModified, secGitStatus, secDirectoryListed,
    secWebSearchResults, foldl_append_eq, str_ite_append, foldAppend_ite,
    String.append_assoc, String.empty_append, String.append_empty]

end CCB
